import Mathlib

/-!
Cooperative-I/O adapters for ODBC (`coio_odbc.c`)

A shallow embedding of `src/.rocks/share/tarantool/odbc/coio_odbc.c`.

The file consists of seven adapter/trampoline pairs.  An adapter
`coio_SQLxxx` has the signature of the ODBC entry point `SQLxxx`; it hands a
trampoline `odbc_xxx` and its own arguments to the variadic offload executor
`coio_call`, and returns what `coio_call` returns, converted to `SQLRETURN`.
The trampoline reads the arguments back with `va_arg`, calls `SQLxxx` and
returns its result as `ssize_t`.

Embedding conventions:

* every C scalar (pointer, handle, integer) is an `Int`; a conversion to an
  integer type of `w` bits is an explicit wrap modulo `2 ^ w`;
* a `va_list` is a list of slots, each holding the promoted type and the value
  of one variadic argument; `va_arg` with an incompatible type, or on an
  exhausted list, is undefined behaviour and is modelled by `none`;
* the world is an event log: `coio_call`, `va_arg` and the native entry points
  are external to the file, and each appends one event when it is entered
  (and `coio_call` one more when it returns to the calling task);
* the ODBC driver and the decision of the executor (run the trampoline, or
  fail without running it) are parameters.
-/

namespace CoioOdbc

/-! ## C types, conversions and default argument promotion -/

/-- The C type names that occur in `coio_odbc.c`, as parameter types of the
adapters and as the type operand of `va_arg`. -/
inductive CType
  | SQLHANDLE
  | SQLHDBC
  | SQLHSTMT
  | SQLHWND
  | SQLCHAR_ptr
  | SQLSMALLINT_ptr
  | SQLSMALLINT
  | SQLUSMALLINT
  | SQLINTEGER
  | int
  | unsigned_int
  deriving DecidableEq, Repr

/-- The argument kinds of a variadic call: a pointer, or a signed or unsigned
integer of a given width in bits. -/
inductive ArgKind
  | pointer
  | signed (bits : Nat)
  | unsigned (bits : Nat)
  deriving DecidableEq, Repr

/-- Modelled from the spec: the typedefs of the ODBC header `sqltypes.h` and the
LP64 data model, neither of which is part of the repository.  Handles and
`SQLCHAR *`, `SQLSMALLINT *` are pointers, `SQLSMALLINT` is a signed and
`SQLUSMALLINT` an unsigned 16-bit integer, `SQLINTEGER` and `int` are signed
32-bit, `unsigned int` is unsigned 32-bit. -/
def CType.kind : CType → ArgKind
  | .SQLHANDLE => .pointer
  | .SQLHDBC => .pointer
  | .SQLHSTMT => .pointer
  | .SQLHWND => .pointer
  | .SQLCHAR_ptr => .pointer
  | .SQLSMALLINT_ptr => .pointer
  | .SQLSMALLINT => .signed 16
  | .SQLUSMALLINT => .unsigned 16
  | .SQLINTEGER => .signed 32
  | .int => .signed 32
  | .unsigned_int => .unsigned 32

/-- Width in bits of an argument kind (pointers are 64-bit). -/
def ArgKind.bits : ArgKind → Nat
  | .pointer => 64
  | .signed b => b
  | .unsigned b => b

/-- The values representable in an argument kind. -/
def ArgKind.InRange : ArgKind → Int → Prop
  | .pointer, v => 0 ≤ v ∧ v < 2 ^ 64
  | .signed b, v => -(2 ^ (b - 1)) ≤ v ∧ v < 2 ^ (b - 1)
  | .unsigned b, v => 0 ≤ v ∧ v < 2 ^ b

instance (k : ArgKind) (v : Int) : Decidable (k.InRange v) := by
  cases k <;> unfold ArgKind.InRange <;> infer_instance

/-- The values of a C type. -/
def CType.InRange (t : CType) (v : Int) : Prop := t.kind.InRange v

instance (t : CType) (v : Int) : Decidable (t.InRange v) := by
  unfold CType.InRange; infer_instance

/-- Conversion to a signed integer type of `bits` bits: the value modulo
`2 ^ bits` that lies in `[-2 ^ (bits - 1), 2 ^ (bits - 1))`. -/
def wrapSigned (bits : Nat) (v : Int) : Int :=
  (v + 2 ^ (bits - 1)) % 2 ^ bits - 2 ^ (bits - 1)

/-- Conversion to an unsigned integer type of `bits` bits. -/
def wrapUnsigned (bits : Nat) (v : Int) : Int :=
  v % 2 ^ bits

/-- C conversion of an integer value to the type `t` (assignment, initialisation
and `return` all convert to the destination type). -/
def CType.convert (t : CType) (v : Int) : Int :=
  match t.kind with
  | .pointer => v
  | .signed b => wrapSigned b v
  | .unsigned b => wrapUnsigned b v

/-- Conversion to `SQLRETURN`, a signed 16-bit integer (`typedef SQLSMALLINT
SQLRETURN`): what `return coio_call(...)` does in a function returning
`SQLRETURN`. -/
def toSQLRETURN (v : Int) : Int := wrapSigned 16 v

/-- Conversion to `ssize_t`, a signed 64-bit integer: what `return SQLxxx(...)`
does in a trampoline, whose return type is `ssize_t`. -/
def to_ssize_t (v : Int) : Int := wrapSigned 64 v

/-- The default argument promotions applied to the trailing arguments of a
variadic call: integer types narrower than `int` become `int` (`int`
represents every `unsigned short`), every other type is passed as it is. -/
def CType.promote : CType → CType
  | .SQLSMALLINT => .int
  | .SQLUSMALLINT => .int
  | t => t

/-- One variadic argument as it travels in a `va_list`: its type after
promotion and its value. -/
structure VaArg where
  ty : CType
  val : Int
  deriving DecidableEq, Repr

/-- Passing the value `v` of a parameter declared with type `t` as a trailing
argument of a variadic call. -/
def pack (t : CType) (v : Int) : VaArg := ⟨t.promote, v⟩

/-- The rule of `va_arg(ap, t)` (C11 7.16.1.1): the requested type has to be
compatible with the promoted type of the argument, except that a signed type
and the corresponding unsigned type may be interchanged when the value is
representable in both. -/
def VaArg.compatible (a : VaArg) (t : CType) : Bool :=
  match a.ty.kind, t.kind with
  | .pointer, .pointer => true
  | .signed b, .signed c => b == c
  | .unsigned b, .unsigned c => b == c
  | .signed b, .unsigned c => b == c && decide (0 ≤ a.val) && decide (a.val < 2 ^ (b - 1))
  | .unsigned b, .signed c => b == c && decide (0 ≤ a.val) && decide (a.val < 2 ^ (b - 1))
  | _, _ => false

/-! ## Calls, events, and the two execution contexts -/

/-- The seven trampolines, as function references passed to `coio_call`. -/
inductive FuncRef
  | odbc_connect
  | odbc_exec_direct
  | odbc_tables
  | odbc_fetch
  | odbc_prepare
  | odbc_execute
  | odbc_end_tran
  deriving DecidableEq, Repr

/-- A call of one of the seven ODBC entry points with its arguments, in the
order of the C prototype.  The adapter `coio_SQLxxx` has the same prototype
as `SQLxxx`, so the same type describes an invocation of an adapter. -/
inductive OdbcCall
  | SQLDriverConnect (hdbc hwnd szConnStrIn cbConnStrIn szConnStrOut
      cbConnStrOutMax pcbConnStrOut fDriverCompletion : Int)
  | SQLExecDirect (StatementHandle StatementText TextLength : Int)
  | SQLTables (StatementHandle CatalogName NameLength1 SchemaName NameLength2
      TableName NameLength3 TableType NameLength4 : Int)
  | SQLFetch (StatementHandle : Int)
  | SQLPrepare (StatementHandle StatementText TextLength : Int)
  | SQLExecute (StatementHandle : Int)
  | SQLEndTran (HandleType Handle CompletionType : Int)
  deriving DecidableEq, Repr

/-- What the external primitives record, in the order in which it happens. -/
inductive Event
  /-- Entry into coio_call(f, args...): one offload task was created. -/
  | offload (f : FuncRef) (args : List VaArg)
  /-- The read va_arg(ap, asked) consumed the slot. -/
  | va_arg (asked : CType) (slot : VaArg)
  /-- A native ODBC entry point was entered. -/
  | native (c : OdbcCall)
  /-- Return of coio_call with the value r to the calling task. -/
  | resume (r : Int)
  deriving DecidableEq, Repr

/-- The world: the log of events so far, oldest first. -/
abbrev World := List Event

/-- The native calls of a log, in order. -/
def natives (w : World) : List OdbcCall :=
  w.filterMap fun e => match e with
    | .native c => some c
    | _ => none

/-- The offload tasks of a log, in order. -/
def offloads (w : World) : List (FuncRef × List VaArg) :=
  w.filterMap fun e => match e with
    | .offload f args => some (f, args)
    | _ => none

/-- The `va_arg` reads of a log, in order: requested type and slot consumed. -/
def reads (w : World) : List (CType × VaArg) :=
  w.filterMap fun e => match e with
    | .va_arg t a => some (t, a)
    | _ => none

/-- The values `coio_call` returned to its callers, in order. -/
def resumes (w : World) : List Int :=
  w.filterMap fun e => match e with
    | .resume r => some r
    | _ => none

/-- The ODBC driver: the result code of a native call, which may depend on the
native calls made before it.  The entry points return SQLRETURN; a statement
that depends on it assumes IsSQLRETURN of the answer. -/
abbrev Driver := List OdbcCall → OdbcCall → Int

/-- State of a trampoline while it runs: its `va_list` and the world. -/
structure WorkerState where
  ap : List VaArg
  log : World
  deriving DecidableEq, Repr

/-- Code running in the worker context; the result is absent when the
behaviour is undefined. -/
abbrev Worker := StateT WorkerState Option

/-- Code running in a cooperative task; the result is absent when the
behaviour is undefined. -/
abbrev Fiber := StateT World Option

/-- The macro va_arg(args, t): takes the next slot of the va_list. -/
def va_arg (t : CType) : Worker Int := fun s =>
  match s.ap with
  | [] => none
  | a :: rest =>
    if a.compatible t then some (a.val, ⟨rest, s.log ++ [Event.va_arg t a]⟩) else none

/-- Entering a native ODBC entry point. -/
def SQL (drv : Driver) (c : OdbcCall) : Worker Int := fun s =>
  some (drv (natives s.log) c, ⟨s.ap, s.log ++ [Event.native c]⟩)

/-! ## The trampolines -/

/-- Trampoline of SQLDriverConnect (coio_odbc.c, lines 10-29). -/
def odbc_connect (drv : Driver) : Worker Int := do
  let hdbc ← va_arg CType.SQLHDBC
  let hwnd ← va_arg CType.SQLHWND
  let szConnStrIn ← va_arg CType.SQLCHAR_ptr
  let cbConnStrIn := CType.SQLSMALLINT.convert (← va_arg CType.int)
  let szConnStrOut ← va_arg CType.SQLCHAR_ptr
  let cbConnStrOutMax := CType.SQLSMALLINT.convert (← va_arg CType.int)
  let pcbConnStrOut ← va_arg CType.SQLSMALLINT_ptr
  let fDriverCompletion := CType.SQLUSMALLINT.convert (← va_arg CType.unsigned_int)
  let r ← SQL drv (OdbcCall.SQLDriverConnect hdbc hwnd szConnStrIn cbConnStrIn
    szConnStrOut cbConnStrOutMax pcbConnStrOut fDriverCompletion)
  return to_ssize_t r

/-- Trampoline of SQLExecDirect (lines 51-58). -/
def odbc_exec_direct (drv : Driver) : Worker Int := do
  let StatementHandle ← va_arg CType.SQLHSTMT
  let StatementText ← va_arg CType.SQLCHAR_ptr
  let TextLength ← va_arg CType.SQLINTEGER
  let r ← SQL drv (OdbcCall.SQLExecDirect StatementHandle StatementText TextLength)
  return to_ssize_t r

/-- Trampoline of SQLTables (lines 65-81). -/
def odbc_tables (drv : Driver) : Worker Int := do
  let StatementHandle ← va_arg CType.SQLHSTMT
  let CatalogName ← va_arg CType.SQLCHAR_ptr
  let NameLength1 := CType.SQLSMALLINT.convert (← va_arg CType.int)
  let SchemaName ← va_arg CType.SQLCHAR_ptr
  let NameLength2 := CType.SQLSMALLINT.convert (← va_arg CType.int)
  let TableName ← va_arg CType.SQLCHAR_ptr
  let NameLength3 := CType.SQLSMALLINT.convert (← va_arg CType.int)
  let TableType ← va_arg CType.SQLCHAR_ptr
  let NameLength4 := CType.SQLSMALLINT.convert (← va_arg CType.int)
  let r ← SQL drv (OdbcCall.SQLTables StatementHandle CatalogName NameLength1
    SchemaName NameLength2 TableName NameLength3 TableType NameLength4)
  return to_ssize_t r

/-- Trampoline of SQLFetch (lines 95-98). -/
def odbc_fetch (drv : Driver) : Worker Int := do
  let StatementHandle ← va_arg CType.SQLHSTMT
  let r ← SQL drv (OdbcCall.SQLFetch StatementHandle)
  return to_ssize_t r

/-- Trampoline of SQLPrepare (lines 104-111). -/
def odbc_prepare (drv : Driver) : Worker Int := do
  let StatementHandle ← va_arg CType.SQLHSTMT
  let StatementText ← va_arg CType.SQLCHAR_ptr
  let TextLength ← va_arg CType.SQLINTEGER
  let r ← SQL drv (OdbcCall.SQLPrepare StatementHandle StatementText TextLength)
  return to_ssize_t r

/-- Trampoline of SQLExecute (lines 118-121). -/
def odbc_execute (drv : Driver) : Worker Int := do
  let StatementHandle ← va_arg CType.SQLHSTMT
  let r ← SQL drv (OdbcCall.SQLExecute StatementHandle)
  return to_ssize_t r

/-- Trampoline of SQLEndTran (lines 128-133). -/
def odbc_end_tran (drv : Driver) : Worker Int := do
  let HandleType := CType.SQLSMALLINT.convert (← va_arg CType.int)
  let Handle ← va_arg CType.SQLHANDLE
  let CompletionType := CType.SQLSMALLINT.convert (← va_arg CType.int)
  let r ← SQL drv (OdbcCall.SQLEndTran HandleType Handle CompletionType)
  return to_ssize_t r

/-- Dereferencing a function reference: the code of the trampoline. -/
def FuncRef.code (drv : Driver) : FuncRef → Worker Int
  | .odbc_connect => CoioOdbc.odbc_connect drv
  | .odbc_exec_direct => CoioOdbc.odbc_exec_direct drv
  | .odbc_tables => CoioOdbc.odbc_tables drv
  | .odbc_fetch => CoioOdbc.odbc_fetch drv
  | .odbc_prepare => CoioOdbc.odbc_prepare drv
  | .odbc_execute => CoioOdbc.odbc_execute drv
  | .odbc_end_tran => CoioOdbc.odbc_end_tran drv

/-! ## The offload executor -/

/-- What the executor does with one offload task: it runs the trampoline and
delivers its return value, or it fails without running the trampoline and
returns a value of its own. -/
inductive Outcome
  | ran
  | failed (x : Int)
  deriving DecidableEq, Repr

/-- The decision of the executor for the task it has just been given; it may
depend on everything that happened before. -/
abbrev Executor := World → Outcome

/-- Modelled from the spec: the offload executor coio_call of the Tarantool
module API (declared in tarantool/module.h, which is not part of the
repository), following section 4.1: the function reference is run on the
argument list in the worker context and its result code is delivered to the
caller, or the executor fails and signals a failure result.  Entering
coio_call and returning from it are recorded in the log. -/
def coio_call (ex : Executor) (drv : Driver) (f : FuncRef) (args : List VaArg) : Fiber Int :=
  fun w =>
    let w1 := w ++ [Event.offload f args]
    match ex w1 with
    | .failed x => some (x, w1 ++ [Event.resume x])
    | .ran =>
      match f.code drv ⟨args, w1⟩ with
      | none => none
      | some (r, s) => some (r, s.log ++ [Event.resume r])

/-! ## The adapters -/

/-- Adapter of SQLDriverConnect (coio_odbc.c, lines 31-49). -/
def coio_SQLDriverConnect (ex : Executor) (drv : Driver)
    (hdbc hwnd szConnStrIn cbConnStrIn szConnStrOut cbConnStrOutMax pcbConnStrOut
      fDriverCompletion : Int) : Fiber Int := do
  let r ← coio_call ex drv FuncRef.odbc_connect
    [pack CType.SQLHDBC hdbc,
     pack CType.SQLHWND hwnd,
     pack CType.SQLCHAR_ptr szConnStrIn,
     pack CType.SQLSMALLINT cbConnStrIn,
     pack CType.SQLCHAR_ptr szConnStrOut,
     pack CType.SQLSMALLINT cbConnStrOutMax,
     pack CType.SQLSMALLINT_ptr pcbConnStrOut,
     pack CType.SQLUSMALLINT fDriverCompletion]
  return toSQLRETURN r

/-- Adapter of SQLExecDirect (lines 60-63). -/
def coio_SQLExecDirect (ex : Executor) (drv : Driver)
    (StatementHandle StatementText TextLength : Int) : Fiber Int := do
  let r ← coio_call ex drv FuncRef.odbc_exec_direct
    [pack CType.SQLHSTMT StatementHandle,
     pack CType.SQLCHAR_ptr StatementText,
     pack CType.SQLINTEGER TextLength]
  return toSQLRETURN r

/-- Adapter of SQLTables (lines 83-93). -/
def coio_SQLTables (ex : Executor) (drv : Driver)
    (StatementHandle CatalogName NameLength1 SchemaName NameLength2 TableName NameLength3
      TableType NameLength4 : Int) : Fiber Int := do
  let r ← coio_call ex drv FuncRef.odbc_tables
    [pack CType.SQLHSTMT StatementHandle,
     pack CType.SQLCHAR_ptr CatalogName, pack CType.SQLSMALLINT NameLength1,
     pack CType.SQLCHAR_ptr SchemaName, pack CType.SQLSMALLINT NameLength2,
     pack CType.SQLCHAR_ptr TableName, pack CType.SQLSMALLINT NameLength3,
     pack CType.SQLCHAR_ptr TableType, pack CType.SQLSMALLINT NameLength4]
  return toSQLRETURN r

/-- Adapter of SQLFetch (lines 100-102). -/
def coio_SQLFetch (ex : Executor) (drv : Driver) (StatementHandle : Int) : Fiber Int := do
  let r ← coio_call ex drv FuncRef.odbc_fetch [pack CType.SQLHSTMT StatementHandle]
  return toSQLRETURN r

/-- Adapter of SQLPrepare (lines 113-116). -/
def coio_SQLPrepare (ex : Executor) (drv : Driver)
    (StatementHandle StatementText TextLength : Int) : Fiber Int := do
  let r ← coio_call ex drv FuncRef.odbc_prepare
    [pack CType.SQLHSTMT StatementHandle,
     pack CType.SQLCHAR_ptr StatementText,
     pack CType.SQLINTEGER TextLength]
  return toSQLRETURN r

/-- Adapter of SQLExecute (lines 123-125). -/
def coio_SQLExecute (ex : Executor) (drv : Driver) (StatementHandle : Int) : Fiber Int := do
  let r ← coio_call ex drv FuncRef.odbc_execute [pack CType.SQLHSTMT StatementHandle]
  return toSQLRETURN r

/-- Adapter of SQLEndTran (lines 135-138). -/
def coio_SQLEndTran (ex : Executor) (drv : Driver)
    (HandleType Handle CompletionType : Int) : Fiber Int := do
  let r ← coio_call ex drv FuncRef.odbc_end_tran
    [pack CType.SQLSMALLINT HandleType,
     pack CType.SQLHANDLE Handle,
     pack CType.SQLSMALLINT CompletionType]
  return toSQLRETURN r

/-- The module-initialisation hook (lines 140-144): the Lua state is not
used, and 0 is returned. -/
def luaopen_odbc_libcoio_odbc {lua_State : Type} (L : lua_State) :
    StateT World Option (Int × lua_State) :=
  pure (0, L)

/-- Invoking the adapter that has the prototype of the call c, with the
arguments of c. -/
def coio (ex : Executor) (drv : Driver) : OdbcCall → Fiber Int
  | .SQLDriverConnect hdbc hwnd szConnStrIn cbConnStrIn szConnStrOut cbConnStrOutMax
      pcbConnStrOut fDriverCompletion =>
    coio_SQLDriverConnect ex drv hdbc hwnd szConnStrIn cbConnStrIn szConnStrOut
      cbConnStrOutMax pcbConnStrOut fDriverCompletion
  | .SQLExecDirect h text len => coio_SQLExecDirect ex drv h text len
  | .SQLTables h c n1 s n2 t n3 ty n4 => coio_SQLTables ex drv h c n1 s n2 t n3 ty n4
  | .SQLFetch h => coio_SQLFetch ex drv h
  | .SQLPrepare h text len => coio_SQLPrepare ex drv h text len
  | .SQLExecute h => coio_SQLExecute ex drv h
  | .SQLEndTran ht h ct => coio_SQLEndTran ex drv ht h ct

/-- The arguments of an adapter invocation are values of the declared
parameter types. -/
def OdbcCall.WellTyped : OdbcCall → Prop
  | .SQLDriverConnect hdbc hwnd szConnStrIn cbConnStrIn szConnStrOut cbConnStrOutMax
      pcbConnStrOut fDriverCompletion =>
    CType.SQLHDBC.InRange hdbc ∧ CType.SQLHWND.InRange hwnd ∧
    CType.SQLCHAR_ptr.InRange szConnStrIn ∧ CType.SQLSMALLINT.InRange cbConnStrIn ∧
    CType.SQLCHAR_ptr.InRange szConnStrOut ∧ CType.SQLSMALLINT.InRange cbConnStrOutMax ∧
    CType.SQLSMALLINT_ptr.InRange pcbConnStrOut ∧ CType.SQLUSMALLINT.InRange fDriverCompletion
  | .SQLExecDirect h text len =>
    CType.SQLHSTMT.InRange h ∧ CType.SQLCHAR_ptr.InRange text ∧ CType.SQLINTEGER.InRange len
  | .SQLTables h c n1 s n2 t n3 ty n4 =>
    CType.SQLHSTMT.InRange h ∧
    CType.SQLCHAR_ptr.InRange c ∧ CType.SQLSMALLINT.InRange n1 ∧
    CType.SQLCHAR_ptr.InRange s ∧ CType.SQLSMALLINT.InRange n2 ∧
    CType.SQLCHAR_ptr.InRange t ∧ CType.SQLSMALLINT.InRange n3 ∧
    CType.SQLCHAR_ptr.InRange ty ∧ CType.SQLSMALLINT.InRange n4
  | .SQLFetch h => CType.SQLHSTMT.InRange h
  | .SQLPrepare h text len =>
    CType.SQLHSTMT.InRange h ∧ CType.SQLCHAR_ptr.InRange text ∧ CType.SQLINTEGER.InRange len
  | .SQLExecute h => CType.SQLHSTMT.InRange h
  | .SQLEndTran ht h ct =>
    CType.SQLSMALLINT.InRange ht ∧ CType.SQLHANDLE.InRange h ∧ CType.SQLSMALLINT.InRange ct

instance (c : OdbcCall) : Decidable c.WellTyped := by
  cases c <;> unfold OdbcCall.WellTyped <;> infer_instance

/-- Modelled from the spec: the result code SQL_ERROR of the ODBC header sql.h,
which is not part of the repository; the claim on narrowing names -1 as the
native SQL_ERROR code. -/
def SQL_ERROR : Int := -1

/-- A value of type SQLRETURN. -/
def IsSQLRETURN (r : Int) : Prop := -32768 ≤ r ∧ r ≤ 32767

instance (r : Int) : Decidable (IsSQLRETURN r) := by
  unfold IsSQLRETURN; infer_instance

/-- An executor that runs every trampoline it is given. -/
def Executor.Runs (ex : Executor) : Prop := ∀ w, ex w = Outcome.ran

/-- The executor that always runs the trampoline. -/
def alwaysRun : Executor := fun _ => Outcome.ran

/-- The executor that never runs the trampoline and returns x. -/
def alwaysFail (x : Int) : Executor := fun _ => Outcome.failed x

/-- A driver that answers every call with the result code r. -/
def constDriver (r : Int) : Driver := fun _ _ => r

/-- An executor that runs no trampoline and returns x for every task. -/
def Executor.FailsWith (ex : Executor) (x : Int) : Prop := ∀ w, ex w = Outcome.failed x

/-- One cooperative task that prepares a statement and then executes it on the
same statement handle, keeping both result codes. -/
def prepare_then_execute (ex : Executor) (drv : Driver) (h text len : Int) :
    Fiber (Int × Int) := do
  let r1 ← coio_SQLPrepare ex drv h text len
  let r2 ← coio_SQLExecute ex drv h
  return (r1, r2)

/-- The trampoline an adapter passes to coio_call. -/
def OdbcCall.func : OdbcCall → FuncRef
  | .SQLDriverConnect .. => .odbc_connect
  | .SQLExecDirect .. => .odbc_exec_direct
  | .SQLTables .. => .odbc_tables
  | .SQLFetch .. => .odbc_fetch
  | .SQLPrepare .. => .odbc_prepare
  | .SQLExecute .. => .odbc_execute
  | .SQLEndTran .. => .odbc_end_tran

/-- Number of parameters of the C prototype of an entry point. -/
def OdbcCall.arity : OdbcCall → Nat
  | .SQLDriverConnect .. => 8
  | .SQLExecDirect .. => 3
  | .SQLTables .. => 9
  | .SQLFetch .. => 1
  | .SQLPrepare .. => 3
  | .SQLExecute .. => 1
  | .SQLEndTran .. => 3

/-- The argument list an adapter hands to coio_call: one slot per parameter,
in the order of the prototype, with the promoted type of the parameter. -/
def OdbcCall.packed : OdbcCall → List VaArg
  | .SQLDriverConnect hdbc hwnd szConnStrIn cbConnStrIn szConnStrOut cbConnStrOutMax
      pcbConnStrOut fDriverCompletion =>
    [⟨.SQLHDBC, hdbc⟩, ⟨.SQLHWND, hwnd⟩, ⟨.SQLCHAR_ptr, szConnStrIn⟩, ⟨.int, cbConnStrIn⟩,
     ⟨.SQLCHAR_ptr, szConnStrOut⟩, ⟨.int, cbConnStrOutMax⟩, ⟨.SQLSMALLINT_ptr, pcbConnStrOut⟩,
     ⟨.int, fDriverCompletion⟩]
  | .SQLExecDirect h text len => [⟨.SQLHSTMT, h⟩, ⟨.SQLCHAR_ptr, text⟩, ⟨.SQLINTEGER, len⟩]
  | .SQLTables h c n1 s n2 t n3 ty n4 =>
    [⟨.SQLHSTMT, h⟩, ⟨.SQLCHAR_ptr, c⟩, ⟨.int, n1⟩, ⟨.SQLCHAR_ptr, s⟩, ⟨.int, n2⟩,
     ⟨.SQLCHAR_ptr, t⟩, ⟨.int, n3⟩, ⟨.SQLCHAR_ptr, ty⟩, ⟨.int, n4⟩]
  | .SQLFetch h => [⟨.SQLHSTMT, h⟩]
  | .SQLPrepare h text len => [⟨.SQLHSTMT, h⟩, ⟨.SQLCHAR_ptr, text⟩, ⟨.SQLINTEGER, len⟩]
  | .SQLExecute h => [⟨.SQLHSTMT, h⟩]
  | .SQLEndTran ht h ct => [⟨.int, ht⟩, ⟨.SQLHANDLE, h⟩, ⟨.int, ct⟩]

/-- The type operands of the va_arg reads of a trampoline, in program order. -/
def FuncRef.asked : FuncRef → List CType
  | .odbc_connect =>
    [.SQLHDBC, .SQLHWND, .SQLCHAR_ptr, .int, .SQLCHAR_ptr, .int, .SQLSMALLINT_ptr, .unsigned_int]
  | .odbc_exec_direct => [.SQLHSTMT, .SQLCHAR_ptr, .SQLINTEGER]
  | .odbc_tables =>
    [.SQLHSTMT, .SQLCHAR_ptr, .int, .SQLCHAR_ptr, .int, .SQLCHAR_ptr, .int, .SQLCHAR_ptr, .int]
  | .odbc_fetch => [.SQLHSTMT]
  | .odbc_prepare => [.SQLHSTMT, .SQLCHAR_ptr, .SQLINTEGER]
  | .odbc_execute => [.SQLHSTMT]
  | .odbc_end_tran => [.int, .SQLHANDLE, .int]

/-- The events of one adapter invocation during which the trampoline ran and
the native call returned r. -/
def OdbcCall.events (c : OdbcCall) (r : Int) : List Event :=
  Event.offload c.func c.packed ::
    (List.zipWith Event.va_arg c.func.asked c.packed ++
      [Event.native c, Event.resume (to_ssize_t r)])

/-! ## Conversions -/

theorem convert_SQLSMALLINT {v : Int} (h : CType.SQLSMALLINT.InRange v) :
    CType.SQLSMALLINT.convert v = v := by
  simp only [CType.InRange, CType.kind, ArgKind.InRange] at h
  simp only [CType.convert, CType.kind, wrapSigned]
  norm_num at h ⊢
  omega

theorem convert_SQLUSMALLINT {v : Int} (h : CType.SQLUSMALLINT.InRange v) :
    CType.SQLUSMALLINT.convert v = v := by
  simp only [CType.InRange, CType.kind, ArgKind.InRange] at h
  simp only [CType.convert, CType.kind, wrapUnsigned]
  norm_num at h ⊢
  omega

theorem compatible_USMALLINT {v : Int} (h : CType.SQLUSMALLINT.InRange v) :
    (VaArg.mk CType.int v).compatible CType.unsigned_int = true := by
  simp only [CType.InRange, CType.kind, ArgKind.InRange] at h
  simp only [VaArg.compatible, CType.kind]
  norm_num at h ⊢
  omega

theorem to_ssize_t_of_SQLRETURN {r : Int} (h : IsSQLRETURN r) : to_ssize_t r = r := by
  simp only [IsSQLRETURN] at h
  simp only [to_ssize_t, wrapSigned]
  norm_num
  omega

theorem toSQLRETURN_of_SQLRETURN {r : Int} (h : IsSQLRETURN r) : toSQLRETURN r = r := by
  simp only [IsSQLRETURN] at h
  simp only [toSQLRETURN, wrapSigned]
  norm_num
  omega

/-! ## What one adapter invocation does -/

theorem va_arg_cons (t : CType) (a : VaArg) (rest : List VaArg) (l : World)
    (h : a.compatible t = true) :
    va_arg t ⟨a :: rest, l⟩ = some (a.val, ⟨rest, l ++ [Event.va_arg t a]⟩) := by
  simp [va_arg, h]

theorem worker_bind {α β : Type} (m : Worker α) (k : α → Worker β) (s : WorkerState) :
    (m >>= k) s = (m s).bind fun p => k p.1 p.2 := by
  show StateT.bind m k s = _
  unfold StateT.bind
  cases m s <;> rfl

theorem worker_pure {α : Type} (a : α) (s : WorkerState) :
    (pure a : Worker α) s = some (a, s) := rfl

theorem compatible_same (t : CType) (v : Int) : (VaArg.mk t v).compatible t = true := by
  cases t <;> simp [VaArg.compatible, CType.kind]

theorem natives_append (a b : World) : natives (a ++ b) = natives a ++ natives b := by
  simp [natives]

theorem natives_va_arg (ts : List CType) (args : List VaArg) :
    natives (List.zipWith Event.va_arg ts args) = [] := by
  induction ts generalizing args with
  | nil => simp [natives]
  | cons t ts ih =>
    cases args with
    | nil => simp [natives]
    | cons a args =>
      have h := ih args
      simp only [natives] at h
      simp [natives, h]

/-- A trampoline run on the argument list packed by its adapter reads every
slot, enters the native function once and returns its result code. -/
theorem tramp_run (drv : Driver) (c : OdbcCall) (l : World) (hc : c.WellTyped) :
    c.func.code drv ⟨c.packed, l⟩ =
      some (to_ssize_t (drv (natives l) c),
        ⟨[], l ++ (List.zipWith Event.va_arg c.func.asked c.packed ++ [Event.native c])⟩) := by
  cases c <;>
    simp only [OdbcCall.WellTyped] at hc <;>
    simp only [OdbcCall.func, FuncRef.code, odbc_connect, odbc_exec_direct, odbc_tables,
      odbc_fetch, odbc_prepare, odbc_execute, odbc_end_tran, OdbcCall.packed, FuncRef.asked,
      worker_bind, worker_pure, va_arg_cons, compatible_same, compatible_USMALLINT, Option.bind,
      convert_SQLSMALLINT, convert_SQLUSMALLINT, SQL, hc] <;>
    simp [natives]

/-- The argument list an adapter hands to coio_call is the packed list, and
the adapter returns what coio_call returns, converted to SQLRETURN. -/
theorem coio_eq (ex : Executor) (drv : Driver) (c : OdbcCall) (w : World) :
    (coio ex drv c).run w =
      (coio_call ex drv c.func c.packed w).map fun p => (toSQLRETURN p.1, p.2) := by
  cases c <;>
    simp only [coio, coio_SQLDriverConnect, coio_SQLExecDirect, coio_SQLTables, coio_SQLFetch,
      coio_SQLPrepare, coio_SQLExecute, coio_SQLEndTran, OdbcCall.func, OdbcCall.packed, pack,
      CType.promote, StateT.run] <;>
    (show StateT.bind _ _ _ = _) <;>
    unfold StateT.bind <;>
    (cases coio_call ex drv _ _ w <;> rfl)

/-- An adapter invocation whose trampoline is run: the complete result. -/
theorem coio_run_ran (ex : Executor) (drv : Driver) (c : OdbcCall) (w : World)
    (hc : c.WellTyped) (hex : ex (w ++ [Event.offload c.func c.packed]) = Outcome.ran) :
    (coio ex drv c).run w =
      some (toSQLRETURN (to_ssize_t (drv (natives w) c)),
        w ++ c.events (drv (natives w) c)) := by
  rw [coio_eq]
  simp [coio_call, hex, tramp_run drv c _ hc, OdbcCall.events, natives_append, natives]

/-- An adapter invocation whose trampoline is not run: the complete result. -/
theorem coio_run_failed (ex : Executor) (drv : Driver) (c : OdbcCall) (w : World) (x : Int)
    (hex : ex (w ++ [Event.offload c.func c.packed]) = Outcome.failed x) :
    (coio ex drv c).run w =
      some (toSQLRETURN x, w ++ [Event.offload c.func c.packed, Event.resume x]) := by
  rw [coio_eq]
  simp [coio_call, hex]

theorem offloads_append (a b : World) : offloads (a ++ b) = offloads a ++ offloads b := by
  simp [offloads]

theorem reads_append (a b : World) : reads (a ++ b) = reads a ++ reads b := by
  simp [reads]

theorem resumes_append (a b : World) : resumes (a ++ b) = resumes a ++ resumes b := by
  simp [resumes]

theorem offloads_va_arg (ts : List CType) (args : List VaArg) :
    offloads (List.zipWith Event.va_arg ts args) = [] := by
  induction ts generalizing args with
  | nil => simp [offloads]
  | cons t ts ih =>
    cases args with
    | nil => simp [offloads]
    | cons a args =>
      have h := ih args
      simp only [offloads] at h
      simp [offloads, h]

theorem resumes_va_arg (ts : List CType) (args : List VaArg) :
    resumes (List.zipWith Event.va_arg ts args) = [] := by
  induction ts generalizing args with
  | nil => simp [resumes]
  | cons t ts ih =>
    cases args with
    | nil => simp [resumes]
    | cons a args =>
      have h := ih args
      simp only [resumes] at h
      simp [resumes, h]

theorem reads_va_arg (ts : List CType) (args : List VaArg) :
    reads (List.zipWith Event.va_arg ts args) = List.zip ts args := by
  induction ts generalizing args with
  | nil => simp [reads]
  | cons t ts ih =>
    cases args with
    | nil => simp [reads]
    | cons a args =>
      have h := ih args
      simp only [reads] at h
      simp [reads, h]

theorem natives_events (c : OdbcCall) (r : Int) : natives (c.events r) = [c] := by
  have h := natives_va_arg c.func.asked c.packed
  simp only [natives] at h
  simp [OdbcCall.events, natives, h]

theorem offloads_events (c : OdbcCall) (r : Int) :
    offloads (c.events r) = [(c.func, c.packed)] := by
  have h := offloads_va_arg c.func.asked c.packed
  simp only [offloads] at h
  simp [OdbcCall.events, offloads, h]

theorem resumes_events (c : OdbcCall) (r : Int) : resumes (c.events r) = [to_ssize_t r] := by
  have h := resumes_va_arg c.func.asked c.packed
  simp only [resumes] at h
  simp [OdbcCall.events, resumes, h]

theorem reads_events (c : OdbcCall) (r : Int) :
    reads (c.events r) = List.zip c.func.asked c.packed := by
  have h := reads_va_arg c.func.asked c.packed
  simp only [reads] at h
  simp [OdbcCall.events, reads, h]

theorem toSQLRETURN_range (x : Int) : IsSQLRETURN (toSQLRETURN x) := by
  simp only [IsSQLRETURN, toSQLRETURN, wrapSigned]
  norm_num
  omega

theorem toSQLRETURN_congr (x : Int) : (toSQLRETURN x - x) % 65536 = 0 := by
  simp only [toSQLRETURN, wrapSigned]
  norm_num
  omega

theorem toSQLRETURN_unique (x y : Int) (hy : IsSQLRETURN y) (h : (y - x) % 65536 = 0) :
    y = toSQLRETURN x := by
  simp only [IsSQLRETURN] at hy
  simp only [toSQLRETURN, wrapSigned]
  norm_num
  omega

theorem toSQLRETURN_shift (x k : Int) : toSQLRETURN (x + 65536 * k) = toSQLRETURN x := by
  simp only [toSQLRETURN, wrapSigned]
  norm_num
  omega

theorem fiber_bind {α β : Type} (m : Fiber α) (k : α → Fiber β) (w : World) :
    (m >>= k).run w = (m.run w).bind fun p => (k p.1).run p.2 := by
  show StateT.bind m k w = _
  unfold StateT.bind StateT.run
  cases m w <;> rfl

theorem zip_asked_packed_snd (c : OdbcCall) :
    (List.zip c.func.asked c.packed).map Prod.snd = c.packed := by
  cases c <;> rfl

theorem zip_asked_packed_length (c : OdbcCall) :
    (List.zip c.func.asked c.packed).length = c.arity := by
  cases c <;> rfl

set_option linter.unnecessarySeqFocus false in
/-- Each read of a trampoline against the slot packed at the same position:
same width; same kind, except the last read of odbc_connect. -/
theorem zip_asked_packed_kinds (c : OdbcCall) (hc : c.WellTyped) (i : Nat) (p : CType × VaArg)
    (hp : (List.zip c.func.asked c.packed).get? i = some p) :
    p.1.kind.bits = p.2.ty.kind.bits ∧
      (p.1.kind = p.2.ty.kind ∨
        (c.func = FuncRef.odbc_connect ∧ i = 7 ∧ p.1 = CType.unsigned_int ∧
          p.2.ty = CType.int ∧ 0 ≤ p.2.val ∧ p.2.val ≤ 65535)) := by
  cases c <;>
    simp only [OdbcCall.func, FuncRef.asked, OdbcCall.packed, List.zip_cons_cons,
      List.zip_nil_right] at hp <;>
    simp only [OdbcCall.WellTyped, CType.InRange, ArgKind.InRange, CType.kind] at hc <;>
    norm_num at hc <;>
    (rcases i with _ | _ | _ | _ | _ | _ | _ | _ | _ | _) <;>
    simp at hp <;>
    subst hp <;>
    simp [CType.kind, ArgKind.bits, OdbcCall.func] <;>
    omega

/-! ## The claims -/

/-- C1: when the executor runs the trampoline it is given, an adapter invoked
with typed arguments causes exactly one native call during the invocation,
and that call is the entry point of the same name with the same arguments of the
adapter, in the same order and with unchanged values. -/
theorem adapter_invokes_native_with_same_arguments (ex : Executor) (drv : Driver)
    (c : OdbcCall) (w : World) (hc : c.WellTyped) (hex : ex.Runs) :
    ∃ r w', (coio ex drv c).run w = some (r, w') ∧ natives w' = natives w ++ [c] :=
  ⟨_, _, coio_run_ran ex drv c w hc (hex _), by simp [natives_append, natives_events]⟩

theorem adapter_invokes_native_with_same_arguments_witness :
    (OdbcCall.SQLDriverConnect 1 2 3 (-3) 5 32767 7 65535).WellTyped ∧ alwaysRun.Runs ∧
    ∃ r w', (coio alwaysRun (constDriver 0)
        (OdbcCall.SQLDriverConnect 1 2 3 (-3) 5 32767 7 65535)).run [] = some (r, w') ∧
      natives w' = natives [] ++ [OdbcCall.SQLDriverConnect 1 2 3 (-3) 5 32767 7 65535] :=
  ⟨by decide, fun _ => rfl,
    adapter_invokes_native_with_same_arguments alwaysRun (constDriver 0)
      (OdbcCall.SQLDriverConnect 1 2 3 (-3) 5 32767 7 65535) [] (by decide) (fun _ => rfl)⟩

/-- C2: when the executor runs the trampoline and delivers its return value,
and the native call returns the signed 16-bit result code r, the adapter
returns exactly r; the value delivered by coio_call is r itself (widening to
ssize_t keeps the value and its sign), and narrowing it to SQLRETURN gives r. -/
theorem adapter_returns_native_result_code (ex : Executor) (drv : Driver) (c : OdbcCall)
    (w : World) (r : Int) (hc : c.WellTyped) (hex : ex.Runs) (hr : IsSQLRETURN r)
    (hdrv : drv (natives w) c = r) :
    ∃ w', (coio ex drv c).run w = some (r, w') ∧ resumes w' = resumes w ++ [r] ∧
      to_ssize_t r = r ∧ toSQLRETURN (to_ssize_t r) = r := by
  refine ⟨w ++ c.events r, ?_, ?_, to_ssize_t_of_SQLRETURN hr, ?_⟩
  · rw [coio_run_ran ex drv c w hc (hex _), hdrv, to_ssize_t_of_SQLRETURN hr,
      toSQLRETURN_of_SQLRETURN hr]
  · simp [resumes_append, resumes_events, to_ssize_t_of_SQLRETURN hr]
  · rw [to_ssize_t_of_SQLRETURN hr, toSQLRETURN_of_SQLRETURN hr]

theorem adapter_returns_native_result_code_witness :
    (OdbcCall.SQLExecDirect 1 2 3).WellTyped ∧ alwaysRun.Runs ∧ IsSQLRETURN (-2) ∧
    constDriver (-2) (natives []) (OdbcCall.SQLExecDirect 1 2 3) = -2 ∧
    ∃ w', (coio alwaysRun (constDriver (-2)) (OdbcCall.SQLExecDirect 1 2 3)).run [] =
        some (-2, w') ∧ resumes w' = resumes [] ++ [-2] ∧
      to_ssize_t (-2) = -2 ∧ toSQLRETURN (to_ssize_t (-2)) = -2 :=
  ⟨by decide, fun _ => rfl, by decide, rfl,
    adapter_returns_native_result_code alwaysRun (constDriver (-2))
      (OdbcCall.SQLExecDirect 1 2 3) [] (-2) (by decide) (fun _ => rfl) (by decide) rfl⟩

/-- C3, counterexample: with an executor that fails with -1 and runs nothing,
coio_SQLFetch returns -1; with an executor that runs the trampoline and a
driver whose SQLFetch returns SQL_ERROR (-1), coio_SQLFetch returns -1 as
well.  The value returned on executor failure is not distinguished. -/
theorem executor_failure_code_collides_with_native_code :
    (coio (alwaysFail (-1)) (constDriver 0) (OdbcCall.SQLFetch 1)).run [] =
      some (-1, [Event.offload FuncRef.odbc_fetch [⟨CType.SQLHSTMT, 1⟩], Event.resume (-1)]) ∧
    (coio alwaysRun (constDriver SQL_ERROR) (OdbcCall.SQLFetch 1)).run [] =
      some (-1, [Event.offload FuncRef.odbc_fetch [⟨CType.SQLHSTMT, 1⟩],
        Event.va_arg CType.SQLHSTMT ⟨CType.SQLHSTMT, 1⟩,
        Event.native (OdbcCall.SQLFetch 1), Event.resume (-1)]) ∧
    IsSQLRETURN SQL_ERROR := by
  decide

/-- C3, amended: when the executor fails with the value x without running the
trampoline, the adapter makes no native call and returns x narrowed to
SQLRETURN; this is an ordinary result code, and the same adapter returns the
same value when the trampoline is run and the native call returns that code. -/
theorem executor_failure_returns_ordinary_code (ex ex2 : Executor) (drv drv2 : Driver)
    (c : OdbcCall) (w : World) (x : Int) (hc : c.WellTyped) (hex : ex.FailsWith x)
    (hex2 : ex2.Runs) (hdrv2 : drv2 (natives w) c = toSQLRETURN x) :
    IsSQLRETURN (toSQLRETURN x) ∧
    (∃ w1, (coio ex drv c).run w = some (toSQLRETURN x, w1) ∧ natives w1 = natives w) ∧
    (∃ w2, (coio ex2 drv2 c).run w = some (toSQLRETURN x, w2) ∧
      natives w2 = natives w ++ [c]) := by
  refine ⟨toSQLRETURN_range x, ⟨_, coio_run_failed ex drv c w x (hex _), ?_⟩,
    ⟨w ++ c.events (toSQLRETURN x), ?_, ?_⟩⟩
  · simp [natives_append, natives]
  · rw [coio_run_ran ex2 drv2 c w hc (hex2 _), hdrv2,
      to_ssize_t_of_SQLRETURN (toSQLRETURN_range x),
      toSQLRETURN_of_SQLRETURN (toSQLRETURN_range x)]
  · simp [natives_append, natives_events]

theorem executor_failure_returns_ordinary_code_witness :
    (OdbcCall.SQLEndTran 2 5 1).WellTyped ∧ (alwaysFail (-1)).FailsWith (-1) ∧ alwaysRun.Runs ∧
    constDriver (-1) (natives []) (OdbcCall.SQLEndTran 2 5 1) = toSQLRETURN (-1) ∧
    IsSQLRETURN (toSQLRETURN (-1)) ∧
    (∃ w1, (coio (alwaysFail (-1)) (constDriver 0) (OdbcCall.SQLEndTran 2 5 1)).run [] =
        some (toSQLRETURN (-1), w1) ∧ natives w1 = natives []) ∧
    (∃ w2, (coio alwaysRun (constDriver (-1)) (OdbcCall.SQLEndTran 2 5 1)).run [] =
        some (toSQLRETURN (-1), w2) ∧ natives w2 = natives [] ++ [OdbcCall.SQLEndTran 2 5 1]) :=
  ⟨by decide, fun _ => rfl, fun _ => rfl, by decide,
    executor_failure_returns_ordinary_code (alwaysFail (-1)) alwaysRun (constDriver 0)
      (constDriver (-1)) (OdbcCall.SQLEndTran 2 5 1) [] (-1) (by decide) (fun _ => rfl)
      (fun _ => rfl) (by decide)⟩

/-- C4: a task that calls coio_SQLPrepare(h, text, len) and then
coio_SQLExecute(h), with an executor that runs each trampoline before it
returns, makes exactly the native calls SQLPrepare(h, text, len) and
SQLExecute(h), in that order and once each: the first adapter returns its
result code r1 in a world w1 that holds the first native call only, and
everything the second adapter does, its native call included, comes after w1. -/
theorem prepare_then_execute_in_order (ex : Executor) (drv : Driver) (h text len : Int)
    (w : World) (hc : (OdbcCall.SQLPrepare h text len).WellTyped) (hex : ex.Runs) :
    ∃ r1 r2 x1 x2 w1 w2,
      (coio_SQLPrepare ex drv h text len).run w = some (r1, w1) ∧
      w1 = w ++ [Event.offload FuncRef.odbc_prepare
            [⟨CType.SQLHSTMT, h⟩, ⟨CType.SQLCHAR_ptr, text⟩, ⟨CType.SQLINTEGER, len⟩],
          Event.va_arg CType.SQLHSTMT ⟨CType.SQLHSTMT, h⟩,
          Event.va_arg CType.SQLCHAR_ptr ⟨CType.SQLCHAR_ptr, text⟩,
          Event.va_arg CType.SQLINTEGER ⟨CType.SQLINTEGER, len⟩,
          Event.native (OdbcCall.SQLPrepare h text len),
          Event.resume x1] ∧
      r1 = toSQLRETURN x1 ∧
      (coio_SQLExecute ex drv h).run w1 = some (r2, w2) ∧
      w2 = w1 ++ [Event.offload FuncRef.odbc_execute [⟨CType.SQLHSTMT, h⟩],
          Event.va_arg CType.SQLHSTMT ⟨CType.SQLHSTMT, h⟩,
          Event.native (OdbcCall.SQLExecute h),
          Event.resume x2] ∧
      r2 = toSQLRETURN x2 ∧
      (prepare_then_execute ex drv h text len).run w = some ((r1, r2), w2) ∧
      natives w2 = natives w ++ [OdbcCall.SQLPrepare h text len, OdbcCall.SQLExecute h] := by
  have hc2 : (OdbcCall.SQLExecute h).WellTyped := hc.1
  have e1 := coio_run_ran ex drv (OdbcCall.SQLPrepare h text len) w hc (hex _)
  have e2 := coio_run_ran ex drv (OdbcCall.SQLExecute h)
    (w ++ (OdbcCall.SQLPrepare h text len).events (drv (natives w) (OdbcCall.SQLPrepare h text len)))
    hc2 (hex _)
  simp only [coio] at e1 e2
  refine ⟨_, _, to_ssize_t (drv (natives w) (OdbcCall.SQLPrepare h text len)),
    to_ssize_t (drv (natives (w ++ (OdbcCall.SQLPrepare h text len).events
      (drv (natives w) (OdbcCall.SQLPrepare h text len)))) (OdbcCall.SQLExecute h)),
    _, _, e1, ?_, rfl, e2, ?_, rfl, ?_, ?_⟩
  · simp [OdbcCall.events, OdbcCall.func, OdbcCall.packed, FuncRef.asked]
  · simp [OdbcCall.events, OdbcCall.func, OdbcCall.packed, FuncRef.asked]
  · unfold prepare_then_execute
    rw [fiber_bind, e1]
    simp only [Option.bind]
    rw [fiber_bind, e2]
    rfl
  · simp [natives_append, natives_events]

theorem prepare_then_execute_in_order_witness :
    (OdbcCall.SQLPrepare 9 4096 17).WellTyped ∧ alwaysRun.Runs ∧
    ∃ r1 r2 x1 x2 w1 w2,
      (coio_SQLPrepare alwaysRun (constDriver 1) 9 4096 17).run [] = some (r1, w1) ∧
      w1 = [] ++ [Event.offload FuncRef.odbc_prepare
            [⟨CType.SQLHSTMT, 9⟩, ⟨CType.SQLCHAR_ptr, 4096⟩, ⟨CType.SQLINTEGER, 17⟩],
          Event.va_arg CType.SQLHSTMT ⟨CType.SQLHSTMT, 9⟩,
          Event.va_arg CType.SQLCHAR_ptr ⟨CType.SQLCHAR_ptr, 4096⟩,
          Event.va_arg CType.SQLINTEGER ⟨CType.SQLINTEGER, 17⟩,
          Event.native (OdbcCall.SQLPrepare 9 4096 17),
          Event.resume x1] ∧
      r1 = toSQLRETURN x1 ∧
      (coio_SQLExecute alwaysRun (constDriver 1) 9).run w1 = some (r2, w2) ∧
      w2 = w1 ++ [Event.offload FuncRef.odbc_execute [⟨CType.SQLHSTMT, 9⟩],
          Event.va_arg CType.SQLHSTMT ⟨CType.SQLHSTMT, 9⟩,
          Event.native (OdbcCall.SQLExecute 9),
          Event.resume x2] ∧
      r2 = toSQLRETURN x2 ∧
      (prepare_then_execute alwaysRun (constDriver 1) 9 4096 17).run [] = some ((r1, r2), w2) ∧
      natives w2 = natives [] ++ [OdbcCall.SQLPrepare 9 4096 17, OdbcCall.SQLExecute 9] :=
  ⟨by decide, fun _ => rfl,
    prepare_then_execute_in_order alwaysRun (constDriver 1) 9 4096 17 [] (by decide)
      (fun _ => rfl)⟩

/-- C5: for every Lua state L, the module-initialisation hook returns 0 and
leaves L and the world as they were: nothing is registered or pushed, no
offload task is created and no native function is called. -/
theorem luaopen_returns_zero_and_changes_nothing {lua_State : Type} (L : lua_State)
    (w : World) :
    (luaopen_odbc_libcoio_odbc L).run w = some ((0, L), w) :=
  rfl

/-- C7: every invocation of an adapter with typed arguments, whatever the
executor decides and whatever the driver answers, enters coio_call exactly
once and is resumed exactly once; it makes at most one native call: exactly
one, the wrapped entry point, when the trampoline is run, and none when the
executor fails. -/
theorem adapter_one_offload_at_most_one_native (ex : Executor) (drv : Driver) (c : OdbcCall)
    (w : World) (hc : c.WellTyped) :
    ∃ r w', (coio ex drv c).run w = some (r, w') ∧
      offloads w' = offloads w ++ [(c.func, c.packed)] ∧
      (offloads w').length = (offloads w).length + 1 ∧
      (resumes w').length = (resumes w).length + 1 ∧
      (natives w').length ≤ (natives w).length + 1 ∧
      (ex (w ++ [Event.offload c.func c.packed]) = Outcome.ran →
        natives w' = natives w ++ [c]) ∧
      (∀ x, ex (w ++ [Event.offload c.func c.packed]) = Outcome.failed x →
        natives w' = natives w ∧ r = toSQLRETURN x) := by
  cases hex : ex (w ++ [Event.offload c.func c.packed]) with
  | ran =>
    refine ⟨_, _, coio_run_ran ex drv c w hc hex, ?_, ?_, ?_, ?_, ?_, ?_⟩ <;>
      simp [natives_append, natives_events, offloads_append, offloads_events, resumes_append,
        resumes_events]
  | failed x =>
    refine ⟨_, _, coio_run_failed ex drv c w x hex, ?_, ?_, ?_, ?_, ?_, ?_⟩ <;>
      simp [natives, offloads, resumes]

theorem adapter_one_offload_at_most_one_native_witness :
    (OdbcCall.SQLTables 1 2 3 4 5 6 7 8 9).WellTyped ∧
    ∃ r w', (coio (alwaysFail (-1)) (constDriver 0) (OdbcCall.SQLTables 1 2 3 4 5 6 7 8 9)).run
        [Event.resume 5] = some (r, w') ∧
      offloads w' = offloads [Event.resume 5] ++
        [((OdbcCall.SQLTables 1 2 3 4 5 6 7 8 9).func,
          (OdbcCall.SQLTables 1 2 3 4 5 6 7 8 9).packed)] ∧
      (offloads w').length = (offloads [Event.resume 5]).length + 1 ∧
      (resumes w').length = (resumes [Event.resume 5]).length + 1 ∧
      (natives w').length ≤ (natives [Event.resume 5]).length + 1 ∧
      (alwaysFail (-1) ([Event.resume 5] ++ [Event.offload
          (OdbcCall.SQLTables 1 2 3 4 5 6 7 8 9).func
          (OdbcCall.SQLTables 1 2 3 4 5 6 7 8 9).packed]) = Outcome.ran →
        natives w' = natives [Event.resume 5] ++ [OdbcCall.SQLTables 1 2 3 4 5 6 7 8 9]) ∧
      (∀ x, alwaysFail (-1) ([Event.resume 5] ++ [Event.offload
          (OdbcCall.SQLTables 1 2 3 4 5 6 7 8 9).func
          (OdbcCall.SQLTables 1 2 3 4 5 6 7 8 9).packed]) = Outcome.failed x →
        natives w' = natives [Event.resume 5] ∧ r = toSQLRETURN x) :=
  ⟨by decide,
    adapter_one_offload_at_most_one_native (alwaysFail (-1)) (constDriver 0)
      (OdbcCall.SQLTables 1 2 3 4 5 6 7 8 9) [Event.resume 5] (by decide)⟩

/-- C8, counterexample: in coio_SQLDriverConnect(1, 2, 3, 4, 5, 6, 7, 8) the
last argument, a SQLUSMALLINT, is packed as a signed int by the default
argument promotions, and the trampoline reads that slot with
va_arg(args, unsigned int): the kind read is not the kind packed. -/
theorem connect_last_read_kind_differs :
    pack CType.SQLUSMALLINT 8 = ⟨CType.int, 8⟩ ∧
    ∃ r w', (coio alwaysRun (constDriver 0) (OdbcCall.SQLDriverConnect 1 2 3 4 5 6 7 8)).run [] =
        some (r, w') ∧
      offloads w' = [(FuncRef.odbc_connect,
        [⟨CType.SQLHDBC, 1⟩, ⟨CType.SQLHWND, 2⟩, ⟨CType.SQLCHAR_ptr, 3⟩, ⟨CType.int, 4⟩,
         ⟨CType.SQLCHAR_ptr, 5⟩, ⟨CType.int, 6⟩, ⟨CType.SQLSMALLINT_ptr, 7⟩, ⟨CType.int, 8⟩])] ∧
      (reads w').get? 7 = some (CType.unsigned_int, ⟨CType.int, 8⟩) ∧
      CType.unsigned_int.kind = ArgKind.unsigned 32 ∧
      CType.int.kind = ArgKind.signed 32 ∧
      CType.unsigned_int.kind ≠ CType.int.kind :=
  ⟨rfl, _, _, rfl, by decide, by decide, rfl, rfl, by decide⟩

/-- C8, amended: when the trampoline is run on the argument list packed by its
adapter from typed arguments, it performs exactly as many reads as there are
packed arguments (the arity of the entry point), the slots it consumes are
the packed arguments in order, none is left in the va_list, and no read
fails.  Every read asks for a kind of the width of the slot it consumes, and
for the very kind packed there, except the eighth read of odbc_connect, which
asks for unsigned int where a signed int holding a value between 0 and 65535
was packed. -/
theorem trampoline_reads_match_packed_arguments (ex : Executor) (drv : Driver) (c : OdbcCall)
    (w : World) (hc : c.WellTyped) (hex : ex.Runs) :
    ∃ r w' rs, (coio ex drv c).run w = some (r, w') ∧
      offloads w' = offloads w ++ [(c.func, rs.map Prod.snd)] ∧
      reads w' = reads w ++ rs ∧
      rs.length = c.arity ∧
      (∀ l, ∃ x s, c.func.code drv ⟨rs.map Prod.snd, l⟩ = some (x, s) ∧ s.ap = []) ∧
      ∀ i p, rs.get? i = some p →
        p.1.kind.bits = p.2.ty.kind.bits ∧
        (p.1.kind = p.2.ty.kind ∨
          (c.func = FuncRef.odbc_connect ∧ i = 7 ∧ p.1 = CType.unsigned_int ∧
            p.2.ty = CType.int ∧ 0 ≤ p.2.val ∧ p.2.val ≤ 65535)) := by
  refine ⟨_, _, List.zip c.func.asked c.packed, coio_run_ran ex drv c w hc (hex _), ?_, ?_,
    zip_asked_packed_length c, ?_, zip_asked_packed_kinds c hc⟩
  · simp [offloads_append, offloads_events, zip_asked_packed_snd]
  · simp [reads_append, reads_events]
  · intro l
    rw [zip_asked_packed_snd]
    exact ⟨_, _, tramp_run drv c l hc, rfl⟩

theorem trampoline_reads_match_packed_arguments_witness :
    (OdbcCall.SQLDriverConnect 1 2 3 4 5 6 7 8).WellTyped ∧ alwaysRun.Runs ∧
    ∃ r w' rs, (coio alwaysRun (constDriver 0)
        (OdbcCall.SQLDriverConnect 1 2 3 4 5 6 7 8)).run [] = some (r, w') ∧
      offloads w' = offloads [] ++
        [((OdbcCall.SQLDriverConnect 1 2 3 4 5 6 7 8).func, rs.map Prod.snd)] ∧
      reads w' = reads [] ++ rs ∧
      rs.length = (OdbcCall.SQLDriverConnect 1 2 3 4 5 6 7 8).arity ∧
      (∀ l, ∃ x s, (OdbcCall.SQLDriverConnect 1 2 3 4 5 6 7 8).func.code (constDriver 0)
        ⟨rs.map Prod.snd, l⟩ = some (x, s) ∧ s.ap = []) ∧
      ∀ i p, rs.get? i = some p →
        p.1.kind.bits = p.2.ty.kind.bits ∧
        (p.1.kind = p.2.ty.kind ∨
          ((OdbcCall.SQLDriverConnect 1 2 3 4 5 6 7 8).func = FuncRef.odbc_connect ∧ i = 7 ∧
            p.1 = CType.unsigned_int ∧ p.2.ty = CType.int ∧ 0 ≤ p.2.val ∧ p.2.val ≤ 65535)) :=
  ⟨by decide, fun _ => rfl,
    trampoline_reads_match_packed_arguments alwaysRun (constDriver 0)
      (OdbcCall.SQLDriverConnect 1 2 3 4 5 6 7 8) [] (by decide) (fun _ => rfl)⟩

/-- C9: whatever value x coio_call returns to an adapter, the adapter returns
x narrowed to the signed 16-bit SQLRETURN: the only value between -32768 and
32767 that is congruent to x modulo 65536.  The result is x itself exactly
when x lies between -32768 and 32767, the value -1 is returned as -1, the
native SQL_ERROR code, and
executor results that differ by a multiple of 65536 give the same result. -/
theorem adapter_returns_narrowed_executor_result (ex : Executor) (drv : Driver) (c : OdbcCall)
    (w w' : World) (x : Int) (hx : coio_call ex drv c.func c.packed w = some (x, w')) :
    (coio ex drv c).run w = some (toSQLRETURN x, w') ∧
    IsSQLRETURN (toSQLRETURN x) ∧
    (toSQLRETURN x - x) % 65536 = 0 ∧
    (∀ y, IsSQLRETURN y → (y - x) % 65536 = 0 → y = toSQLRETURN x) ∧
    (toSQLRETURN x = x ↔ IsSQLRETURN x) ∧
    (x = -1 → toSQLRETURN x = SQL_ERROR) ∧
    (∀ k, toSQLRETURN (x + 65536 * k) = toSQLRETURN x) := by
  refine ⟨?_, toSQLRETURN_range x, toSQLRETURN_congr x, fun y => toSQLRETURN_unique x y,
    ⟨fun h => h ▸ toSQLRETURN_range x, toSQLRETURN_of_SQLRETURN⟩, ?_, toSQLRETURN_shift x⟩
  · rw [coio_eq, hx]
    rfl
  · intro h
    subst h
    decide

theorem adapter_returns_narrowed_executor_result_witness :
    coio_call (alwaysFail 70000) (constDriver 0) (OdbcCall.SQLPrepare 1 2 3).func
        (OdbcCall.SQLPrepare 1 2 3).packed [] =
      some (70000, [Event.offload FuncRef.odbc_prepare
        [⟨CType.SQLHSTMT, 1⟩, ⟨CType.SQLCHAR_ptr, 2⟩, ⟨CType.SQLINTEGER, 3⟩],
        Event.resume 70000]) ∧
    (coio (alwaysFail 70000) (constDriver 0) (OdbcCall.SQLPrepare 1 2 3)).run [] =
      some (toSQLRETURN 70000, [Event.offload FuncRef.odbc_prepare
        [⟨CType.SQLHSTMT, 1⟩, ⟨CType.SQLCHAR_ptr, 2⟩, ⟨CType.SQLINTEGER, 3⟩],
        Event.resume 70000]) ∧
    IsSQLRETURN (toSQLRETURN 70000) ∧
    (toSQLRETURN 70000 - 70000) % 65536 = 0 ∧
    (∀ y, IsSQLRETURN y → (y - 70000) % 65536 = 0 → y = toSQLRETURN 70000) ∧
    (toSQLRETURN 70000 = 70000 ↔ IsSQLRETURN 70000) ∧
    ((70000 : Int) = -1 → toSQLRETURN 70000 = SQL_ERROR) ∧
    (∀ k, toSQLRETURN (70000 + 65536 * k) = toSQLRETURN 70000) :=
  ⟨rfl, adapter_returns_narrowed_executor_result (alwaysFail 70000) (constDriver 0)
    (OdbcCall.SQLPrepare 1 2 3) [] _ 70000 rfl⟩

end CoioOdbc
